import Mathlib

/-!
Shallow embedding of PyCustomFile.py (class FileBase together with its
FileBaseWatchDog event handler).

Paths are modelled as strings and the Python os.path helpers used by the
source (posixpath.dirname, posixpath.basename, posixpath.splitext,
posixpath.join, str.split) are translated as executable functions on
character lists.  Filesystem and pickle effects are modelled by explicit
oracles (the decoded content of an existing file, whether a write succeeds)
and an explicit log of I/O events; a raised Python exception is modelled as
an `Option PyErr` component of each operation result, with the object state
that the caller still holds returned alongside it.
-/

-- ------------------------------------------------------------------
-- Character tests used by the path helpers
-- ------------------------------------------------------------------

/-- Boolean test for a character different from a dot. -/
def notDot (c : Char) : Bool := c ≠ '.'

/-- Boolean test for a character different from a slash. -/
def notSlash (c : Char) : Bool := c ≠ '/'

/-- Boolean test for a slash. -/
def isSlash (c : Char) : Bool := c = '/'

-- ------------------------------------------------------------------
-- POSIX path helpers (the os.path functions the source calls)
-- ------------------------------------------------------------------

/-- Part of the path strictly after the last slash: os.path.basename on
POSIX, i.e. p[p.rfind(slash)+1:]. -/
def afterLastSlashL (l : List Char) : List Char :=
  (l.reverse.takeWhile notSlash).reverse

/-- Part of the path up to and including the last slash:
p[:p.rfind(slash)+1]. -/
def upToLastSlashL (l : List Char) : List Char :=
  (l.reverse.dropWhile notSlash).reverse

/-- Remove trailing slashes: str.rstrip restricted to the slash character. -/
def rstripSlashL (l : List Char) : List Char :=
  (l.reverse.dropWhile isSlash).reverse

/-- os.path.dirname on POSIX (posixpath.dirname): the part before the last
slash, with trailing slashes stripped unless the whole head consists of
slashes. -/
def dirnameL (l : List Char) : List Char :=
  let head := upToLastSlashL l
  if head ≠ [] ∧ ¬ (head.all isSlash) then rstripSlashL head else head

/-- Python str.split on a single separator character.  Always returns a
nonempty list; splitting the empty string yields one empty piece. -/
def splitOnCharL (sep : Char) : List Char → List (List Char)
  | [] => [[]]
  | c :: cs =>
    if c = sep then [] :: splitOnCharL sep cs
    else
      match splitOnCharL sep cs with
      | [] => [[c]]
      | h :: t => (c :: h) :: t

/-- Extension component of os.path.splitext on POSIX: everything from the
last dot of the final path component onward, except that a final component
consisting only of leading dots up to that last dot has no extension. -/
def splitextExtL (l : List Char) : List Char :=
  let revBase := (afterLastSlashL l).reverse
  let extTail := revBase.takeWhile notDot
  match revBase.dropWhile notDot with
  | [] => []
  | _ :: before => if before.any notDot then '.' :: extTail.reverse else []

/-- os.path.join on POSIX restricted to two arguments (posixpath.join): the
second component replaces everything when it is absolute, otherwise it is
appended, inserting a slash unless the first component is empty or already
ends in a slash. -/
def posixJoinL (a b : List Char) : List Char :=
  if b.head? = some '/' then b
  else if a = [] ∨ a.getLast? = some '/' then a ++ b
  else a ++ '/' :: b

/-- String wrapper for `dirnameL`. -/
def pyDirname (p : String) : String := String.mk (dirnameL p.data)

/-- String wrapper for `afterLastSlashL`. -/
def pyBasename (p : String) : String := String.mk (afterLastSlashL p.data)

/-- String wrapper for `splitextExtL`. -/
def pySplitextExt (p : String) : String := String.mk (splitextExtL p.data)

/-- String wrapper for `posixJoinL`. -/
def pyJoin (a b : String) : String := String.mk (posixJoinL a.data b.data)

/-- Python fileName.split(".")[0]: head of the dot split. -/
def pySplitDotHead (s : String) : String :=
  String.mk ((splitOnCharL ('.') s.data).headD [])

-- ------------------------------------------------------------------
-- Errors, I/O events, and the FileBase state
-- ------------------------------------------------------------------

/-- Python exceptions that the embedded code can raise.  `typeError` and
`attributeError` are built-in Python errors; `notEnoughInfoOnFile` and
`fileDeleted` are the exception classes defined at the top of the source. -/
inductive PyErr where
  | typeError (msg : String)
  | attributeError (msg : String)
  | notEnoughInfoOnFile (msg : String)
  | fileDeleted (msg : String)
  | ioError
deriving DecidableEq

/-- Message of the TypeError raised when `self._throwNotEnoughInfo(item)` is
called: the method is declared without a `self` parameter (source line 146),
so the bound call passes two arguments to a one-argument function. -/
def pyMsgThrowArity : String :=
  "_throwNotEnoughInfo() takes exactly 1 argument (2 given)"

/-- Message of the TypeError raised by `self.name + self.extension` when one
of the operands is None. -/
def pyMsgNoneConcat : String :=
  "cannot concatenate str and NoneType objects"

/-- Message of the AttributeError raised inside posixpath.join when the
directory argument is None. -/
def pyMsgNoneEndswith : String :=
  "NoneType object has no attribute endswith"

/-- Log entries for the file I/O the embedded operations perform. -/
inductive FsEvent (α : Type) where
  | readFile (path : String)
  | writeFile (path : String) (contents : Option α)
  | writeFailed (path : String)
deriving DecidableEq

/-- State of a FileBase instance: the attributes set in `__init__`
(source lines 113-139).  `liveObservers` additionally records the directory
of every watchdog Observer that has been scheduled and started; the source
never calls stop or unschedule on an observer, so a started observer stays
live for the life of the process, while `watchdog` is only the reference the
instance currently holds. -/
structure FileState (α : Type) where
  unsavedChanges : Bool
  watchdog : Option String
  liveObservers : List String
  name : Option String
  extension : Option String
  directory : Option String
  data : Option α
deriving DecidableEq

/-- Result of one Python-level call: the object state the caller holds
afterwards, the exception propagated (if any), and the file I/O performed. -/
abbrev FBResult (α : Type) := FileState α × Option PyErr × List (FsEvent α)

/-- State right after `FileBase.__init__` runs its field assignments
(source lines 119-128), before any path handling. -/
def initialFileState {α : Type} : FileState α :=
  { unsavedChanges := false
    watchdog := none
    liveObservers := []
    name := none
    extension := none
    directory := none
    data := none }

-- ------------------------------------------------------------------
-- Private methods of FileBase
-- ------------------------------------------------------------------

/-- Message that the body of `_throwNotEnoughInfo` (source lines 150-164)
would build.  The body is unreachable in the source: the method is declared
without a `self` parameter, so every call raises a TypeError first; this
definition records the intended message for comparison. -/
def throwNotEnoughInfoMessage {α : Type} (st : FileState α)
    (itemThatFailed : String) : String :=
  let errorString := ("The file " : String)
  let errors : Nat := 0
  let p1 :=
    if st.name = none then (errorString ++ ("name" : String), errors + 1)
    else (errorString, errors)
  let p2 :=
    if st.extension = none then
      (p1.1 ++ (if p1.2 > 0 then (" and extension" : String) else ("extension" : String)), p1.2 + 1)
    else p1
  let p3 :=
    if st.directory = none then
      (p2.1 ++ (if p2.2 > 0 then (" and directory" : String) else ("directory" : String)), p2.2 + 1)
    else p2
  p3.1 ++ (" to intialise the " : String) ++ itemThatFailed

/-- `_changesMade` (source lines 202-204). -/
def changesMadeFB {α : Type} (st : FileState α) : FileState α :=
  { st with unsavedChanges := true }

/-- `_getInfoFromPath` (source lines 193-200): directory from
os.path.dirname, name from basename split at the first dot, extension from
os.path.splitext. -/
def getInfoFromPathFB {α : Type} (path : String) (st : FileState α) :
    FileState α :=
  { st with
    directory := some (pyDirname path)
    name := some (pySplitDotHead (pyBasename path))
    extension := some (pySplitextExt path) }

/-- `_initWatchdog` (source lines 169-186): with a complete identity it
creates, schedules and starts a new Observer on `directory` and overwrites
`self.watchdog`; the previous observer is not stopped, so it stays in
`liveObservers`.  With an incomplete identity the call
`self._throwNotEnoughInfo("watchdog")` raises a TypeError (see
`pyMsgThrowArity`). -/
def initWatchdogFB {α : Type} (st : FileState α) : FBResult α :=
  match st.name, st.extension, st.directory with
  | some _, some _, some d =>
    ({ st with watchdog := some d, liveObservers := st.liveObservers ++ [d] },
      none, [])
  | _, _, _ => (st, some (PyErr.typeError pyMsgThrowArity), [])

/-- `_updateFileLocation` (source lines 188-191). -/
def updateFileLocationFB {α : Type} (path : String) (st : FileState α) :
    FBResult α :=
  initWatchdogFB (getInfoFromPathFB path st)

/-- `getAbsolutePath` (source lines 281-283):
os.path.join(self.directory, self.name + self.extension).  With None fields
the Python expression raises: the string concatenation raises a TypeError if
name or extension is None, and posixpath.join raises an AttributeError if
the directory is None. -/
def getAbsolutePathExc {α : Type} (st : FileState α) : Except PyErr String :=
  match st.name, st.extension with
  | some n, some e =>
    match st.directory with
    | some d => Except.ok (String.mk (posixJoinL d.data (n.data ++ e.data)))
    | none => Except.error (PyErr.attributeError pyMsgNoneEndswith)
  | _, _ => Except.error (PyErr.typeError pyMsgNoneConcat)

-- ------------------------------------------------------------------
-- Public methods of FileBase
-- ------------------------------------------------------------------

/-- `hasUnsavedChanges` (source lines 231-233). -/
def hasUnsavedChangesFB {α : Type} (st : FileState α) : Bool :=
  st.unsavedChanges

/-- `getData` (source lines 290-292). -/
def getDataFB {α : Type} (st : FileState α) : Option α :=
  st.data

/-- `open` (source lines 236-248) for a path whose file exists and whose
bytes unpickle successfully to `stored`: derive the identity from the path,
load the data, then start the watchdog.  The dirty flag is not touched. -/
def openFB {α : Type} (path : String) (stored : α) (st : FileState α) :
    FBResult α :=
  let st1 := getInfoFromPathFB path st
  let st2 := { st1 with data := some stored }
  let r := initWatchdogFB st2
  (r.1, r.2.1, FsEvent.readFile path :: r.2.2)

/-- `save` (source lines 250-271).  `ioOk` is the oracle for the underlying
open/pickle.dump call; on a false oracle the write raises before any
assignment to the object, so the in-memory state is returned unchanged.
With an incomplete identity the call `self._throwNotEnoughInfo("save")`
raises a TypeError before any file I/O. -/
def saveFB {α : Type} (ioOk : Bool) (st : FileState α) : FBResult α :=
  match st.name, st.extension, st.directory with
  | some n, some e, some d =>
    let path := String.mk (posixJoinL d.data (n.data ++ e.data))
    if ioOk then
      ({ st with unsavedChanges := false }, none,
        [FsEvent.writeFile path st.data])
    else (st, some PyErr.ioError, [FsEvent.writeFailed path])
  | _, _, _ => (st, some (PyErr.typeError pyMsgThrowArity), [])

/-- `saveAs` (source lines 273-279): derive the identity from the new path,
save, then start a new watchdog.  An exception in `save` propagates before
the watchdog is touched. -/
def saveAsFB {α : Type} (path : String) (ioOk : Bool) (st : FileState α) :
    FBResult α :=
  let r1 := saveFB ioOk (getInfoFromPathFB path st)
  match r1.2.1 with
  | some e => (r1.1, some e, r1.2.2)
  | none =>
    let r2 := initWatchdogFB r1.1
    (r2.1, r2.2.1, r1.2.2 ++ r2.2.2)

/-- Body of `setData` after the decorator has run (source lines 286-288). -/
def setDataBody {α : Type} (v : α) (st : FileState α) : FileState α :=
  { st with data := some v }

/-- `setData` (source lines 285-288): the `makesChanges` decorator (source
lines 54-66) calls `_changesMade` first and only then runs the wrapped
body that replaces the data. -/
def setDataFB {α : Type} (v : α) (st : FileState α) : FileState α :=
  setDataBody v (changesMadeFB st)

/-- `recoverFromDelete` (source lines 294-296). -/
def recoverFromDeleteFB {α : Type} (newPath : String) (st : FileState α) :
    FBResult α :=
  updateFileLocationFB newPath st

-- ------------------------------------------------------------------
-- Event handlers and the watchdog dispatch
-- ------------------------------------------------------------------

/-- `evt_OnFileModified` (source lines 211-213). -/
def evtOnFileModifiedFB {α : Type} (srcPath : String) (st : FileState α) :
    FBResult α :=
  updateFileLocationFB srcPath st

/-- `evt_OnFileDeleted` (source lines 215-220): raise FileDeleted with a
message naming the original name+extension and directory; nothing about the
object is mutated.  Python evaluates `self.name + self.extension` first, so
a None name or extension raises a TypeError instead; a None directory is
formatted as the string None. -/
def evtOnFileDeletedFB {α : Type} (st : FileState α) : FBResult α :=
  match st.name, st.extension with
  | some n, some e =>
    let dstr := match st.directory with
      | some d => d
      | none => ("None" : String)
    (st, some (PyErr.fileDeleted
      (("The file " : String) ++ (n ++ e) ++
        (" was either deleted or moved from " : String) ++ dstr)), [])
  | _, _ => (st, some (PyErr.typeError pyMsgNoneConcat), [])

/-- `evt_OnFileMoved` (source lines 222-224): relocate to the destination
path of the event. -/
def evtOnFileMovedFB {α : Type} (destPath : String) (st : FileState α) :
    FBResult α :=
  updateFileLocationFB destPath st

/-- `FileBaseWatchDog.on_moved` (source lines 86-91): the handler fires only
when the event source path equals the absolute path of the watched file. -/
def onMovedFB {α : Type} (srcPath destPath : String) (st : FileState α) :
    FBResult α :=
  match getAbsolutePathExc st with
  | Except.ok ap => if srcPath = ap then evtOnFileMovedFB destPath st else (st, none, [])
  | Except.error e => (st, some e, [])

/-- `FileBaseWatchDog.on_deleted` (source lines 93-98). -/
def onDeletedFB {α : Type} (srcPath : String) (st : FileState α) :
    FBResult α :=
  match getAbsolutePathExc st with
  | Except.ok ap => if srcPath = ap then evtOnFileDeletedFB st else (st, none, [])
  | Except.error e => (st, some e, [])

/-- `FileBaseWatchDog.on_modified` (source lines 100-105). -/
def onModifiedFB {α : Type} (srcPath : String) (st : FileState α) :
    FBResult α :=
  match getAbsolutePathExc st with
  | Except.ok ap => if srcPath = ap then evtOnFileModifiedFB srcPath st else (st, none, [])
  | Except.error e => (st, some e, [])

-- ------------------------------------------------------------------
-- Operation alphabet and small-step dispatcher
-- ------------------------------------------------------------------

/-- One public call on a FileBase instance, or one filesystem event
delivered to its watchdog handler.  `openOp` carries the decoding oracle for
the file contents; `saveOp` and `saveAsOp` carry the write-success oracle. -/
inductive FileOp (α : Type) where
  | openOp (path : String) (stored : α)
  | saveOp (ioOk : Bool)
  | saveAsOp (path : String) (ioOk : Bool)
  | setDataOp (v : α)
  | getDataOp
  | hasUnsavedChangesOp
  | getAbsolutePathOp
  | recoverFromDeleteOp (path : String)
  | onMovedOp (srcPath destPath : String)
  | onDeletedOp (srcPath : String)
  | onModifiedOp (srcPath : String)
deriving DecidableEq

/-- Dispatch one operation against the instance state. -/
def step {α : Type} (op : FileOp α) (st : FileState α) : FBResult α :=
  match op with
  | FileOp.openOp path stored => openFB path stored st
  | FileOp.saveOp ioOk => saveFB ioOk st
  | FileOp.saveAsOp path ioOk => saveAsFB path ioOk st
  | FileOp.setDataOp v => (setDataFB v st, none, [])
  | FileOp.getDataOp => (st, none, [])
  | FileOp.hasUnsavedChangesOp => (st, none, [])
  | FileOp.getAbsolutePathOp =>
    match getAbsolutePathExc st with
    | Except.ok _ => (st, none, [])
    | Except.error e => (st, some e, [])
  | FileOp.recoverFromDeleteOp path => recoverFromDeleteFB path st
  | FileOp.onMovedOp srcPath destPath => onMovedFB srcPath destPath st
  | FileOp.onDeletedOp srcPath => onDeletedFB srcPath st
  | FileOp.onModifiedOp srcPath => onModifiedFB srcPath st

/-- Run a sequence of operations, keeping the object state across raised
exceptions (the Python caller catches them and still holds the object). -/
def runOps {α : Type} (ops : List (FileOp α)) (st : FileState α) :
    FileState α :=
  ops.foldl (fun s op => (step op s).1) st

/-- `FileBase.__init__` with an existing path (source lines 131-135):
field assignments, then `open`. -/
def fileBaseInitExisting {α : Type} (path : String) (stored : α) :
    FBResult α :=
  openFB path stored initialFileState

/-- `FileBase.__init__` with a path that does not exist on disk
(source lines 137-139): field assignments, then `saveAs`. -/
def fileBaseInitNew {α : Type} (path : String) (ioOk : Bool) : FBResult α :=
  saveAsFB path ioOk initialFileState

-- ------------------------------------------------------------------
-- Derived notions the claims talk about
-- ------------------------------------------------------------------

/-- True when directory, name and extension are all set. -/
def identityCompleteB {α : Type} (st : FileState α) : Bool :=
  st.name.isSome && st.extension.isSome && st.directory.isSome

/-- Absolute path obtained from deriving an identity from `p` and reading it
back, as an Option (none when the read-back raises, which cannot happen
right after a derivation). -/
def roundTripPath (p : String) : Option String :=
  (getAbsolutePathExc (getInfoFromPathFB p (initialFileState (α := Unit)))).toOption

/-- Spec-side formalisation of the words: the part of the file name before
its first dot. -/
def spec_beforeFirstDot (s : String) : String :=
  String.mk (s.data.takeWhile notDot)

/-- Spec-side formalisation of the words: the last path-extension segment of
the file name, i.e. a dot followed by the part after the last dot. -/
def spec_lastExtSegment (s : String) : String :=
  String.mk ('.' :: (s.data.reverse.takeWhile notDot).reverse)

/-- Demonstration state: a handle opened on the existing file /a/b.c whose
pickled content decodes to 0. -/
def openedDemoState : FileState Nat :=
  (fileBaseInitExisting ("/a/b.c") (0 : Nat)).1

-- ------------------------------------------------------------------
-- Generic list lemmas
-- ------------------------------------------------------------------

theorem takeWhile_append_of_all {p : Char → Bool} (l₁ l₂ : List Char)
    (h : ∀ a ∈ l₁, p a = true) :
    (l₁ ++ l₂).takeWhile p = l₁ ++ l₂.takeWhile p := by
  induction l₁ with
  | nil => simp
  | cons a l ih =>
    simp only [List.cons_append,
      List.takeWhile_cons_of_pos (h a (List.mem_cons_self a l))]
    rw [ih (fun x hx => h x (List.mem_cons_of_mem a hx))]

theorem dropWhile_append_of_all {p : Char → Bool} (l₁ l₂ : List Char)
    (h : ∀ a ∈ l₁, p a = true) :
    (l₁ ++ l₂).dropWhile p = l₂.dropWhile p := by
  induction l₁ with
  | nil => simp
  | cons a l ih =>
    simp only [List.cons_append,
      List.dropWhile_cons_of_pos (h a (List.mem_cons_self a l))]
    exact ih (fun x hx => h x (List.mem_cons_of_mem a hx))

theorem takeWhile_eq_self_of_all {p : Char → Bool} (l : List Char)
    (h : ∀ a ∈ l, p a = true) : l.takeWhile p = l := by
  simpa using takeWhile_append_of_all (p := p) l [] h

theorem dropWhile_eq_nil_of_all {p : Char → Bool} (l : List Char)
    (h : ∀ a ∈ l, p a = true) : l.dropWhile p = [] := by
  simpa using dropWhile_append_of_all (p := p) l [] h

theorem head_false_of_dropWhile_eq_cons {p : Char → Bool} {l t : List Char}
    {a : Char} (h : l.dropWhile p = a :: t) : p a = false := by
  induction l with
  | nil => simp at h
  | cons c cs ih =>
    by_cases hc : p c
    · rw [List.dropWhile_cons_of_pos hc] at h
      exact ih h
    · rw [List.dropWhile_cons_of_neg hc] at h
      cases h
      exact Bool.eq_false_iff.mpr hc

theorem mem_of_getLast?_eq {l : List Char} {a : Char}
    (h : l.getLast? = some a) : a ∈ l := by
  induction l with
  | nil => simp at h
  | cons c cs ih =>
    cases cs with
    | nil =>
      simp only [List.getLast?_singleton, Option.some.injEq] at h
      simp [h]
    | cons d ds =>
      rw [List.getLast?_cons_cons] at h
      exact List.mem_cons_of_mem c (ih h)

theorem getLast?_dropWhile {p : Char → Bool} (l : List Char)
    (h : l.dropWhile p ≠ []) : (l.dropWhile p).getLast? = l.getLast? := by
  conv_rhs => rw [← List.takeWhile_append_dropWhile p l]
  rw [List.getLast?_append_of_ne_nil _ h]

-- ------------------------------------------------------------------
-- Path-helper lemmas
-- ------------------------------------------------------------------

theorem notSlash_of_not_mem {b : List Char} (hb : '/' ∉ b) :
    ∀ a ∈ b.reverse, notSlash a = true := by
  intro a ha
  have hm : a ∈ b := List.mem_reverse.mp ha
  simp only [notSlash, decide_eq_true_eq]
  intro h
  exact hb (h ▸ hm)

theorem head?_ne_slash_of_not_mem {b : List Char} (hb : '/' ∉ b) :
    b.head? ≠ some '/' := by
  cases b with
  | nil => simp
  | cons c t =>
    simp only [List.head?_cons, ne_eq, Option.some.injEq]
    intro h
    exact hb (h ▸ List.mem_cons_self c t)

theorem afterLastSlash_append (d b : List Char) (hb : '/' ∉ b) :
    afterLastSlashL (d ++ '/' :: b) = b := by
  unfold afterLastSlashL
  rw [List.reverse_append, List.reverse_cons, List.append_assoc,
    takeWhile_append_of_all _ _ (notSlash_of_not_mem hb)]
  rw [List.singleton_append,
    List.takeWhile_cons_of_neg (by simp [notSlash])]
  simp

theorem upToLastSlash_append (d b : List Char) (hb : '/' ∉ b) :
    upToLastSlashL (d ++ '/' :: b) = d ++ ['/'] := by
  unfold upToLastSlashL
  rw [List.reverse_append, List.reverse_cons, List.append_assoc,
    dropWhile_append_of_all _ _ (notSlash_of_not_mem hb)]
  rw [List.singleton_append,
    List.dropWhile_cons_of_neg (by simp [notSlash])]
  simp

theorem rstripSlash_append_of_no_trailing (d : List Char) (hd0 : d ≠ [])
    (hlast : d.getLast? ≠ some '/') :
    rstripSlashL (d ++ ['/']) = d := by
  unfold rstripSlashL
  rw [List.reverse_append]
  have h1 : (['/'] : List Char).reverse = ['/'] := rfl
  rw [h1, List.singleton_append, List.dropWhile_cons_of_pos (by simp [isSlash])]
  have hrev : d.reverse ≠ [] := by simpa using hd0
  cases hr : d.reverse with
  | nil => exact absurd hr hrev
  | cons a t =>
    have ha : a ≠ '/' := by
      intro h
      apply hlast
      rw [← List.head?_reverse, hr, h]
      rfl
    rw [List.dropWhile_cons_of_neg (by simp [isSlash, ha])]
    rw [← hr, List.reverse_reverse]

theorem dirname_append_of_all_slash (d b : List Char) (hb : '/' ∉ b)
    (hall : ∀ c ∈ d, c = '/') :
    dirnameL (d ++ '/' :: b) = d ++ ['/'] := by
  have hup := upToLastSlash_append d b hb
  have hA : (d ++ ['/']).all isSlash = true := by
    rw [List.all_eq_true]
    intro x hx
    rcases List.mem_append.mp hx with h | h
    · simp [isSlash, hall x h]
    · simp only [List.mem_singleton] at h
      simp [isSlash, h]
  simp [dirnameL, hup, hA]

theorem dirname_append_of_no_trailing (d b : List Char) (hb : '/' ∉ b)
    (hne : ¬ ∀ c ∈ d, c = '/') (hlast : d.getLast? ≠ some '/') :
    dirnameL (d ++ '/' :: b) = d := by
  have hup := upToLastSlash_append d b hb
  have hd0 : d ≠ [] := by
    rintro rfl
    exact hne (by simp)
  have hA : (d ++ ['/']).all isSlash = false := by
    rw [Bool.eq_false_iff]
    intro h
    rw [List.all_eq_true] at h
    refine hne (fun c hc => ?_)
    have := h c (List.mem_append_left _ hc)
    simpa [isSlash] using this
  simp [dirnameL, hup, hA, rstripSlash_append_of_no_trailing d hd0 hlast]

theorem join_slash_left (d b : List Char) (hb : '/' ∉ b) :
    posixJoinL (d ++ ['/']) b = d ++ '/' :: b := by
  unfold posixJoinL
  rw [if_neg (head?_ne_slash_of_not_mem hb),
    if_pos (Or.inr (List.getLast?_concat d))]
  simp

theorem join_no_trailing (d b : List Char) (hd0 : d ≠ [])
    (hlast : d.getLast? ≠ some '/') (hb : '/' ∉ b) :
    posixJoinL d b = d ++ '/' :: b := by
  unfold posixJoinL
  rw [if_neg (head?_ne_slash_of_not_mem hb), if_neg (by
    rintro (h | h)
    · exact hd0 h
    · exact hlast h)]

theorem join_dirname (d b c : List Char) (hb : '/' ∉ b) (hc : '/' ∉ c)
    (hd : d.getLast? ≠ some '/' ∨ ∀ x ∈ d, x = '/') :
    posixJoinL (dirnameL (d ++ '/' :: b)) c = d ++ '/' :: c := by
  by_cases hall : ∀ x ∈ d, x = '/'
  · rw [dirname_append_of_all_slash d b hb hall, join_slash_left d c hc]
  · have hlast : d.getLast? ≠ some '/' := hd.resolve_right hall
    rw [dirname_append_of_no_trailing d b hb hall hlast]
    exact join_no_trailing d c (by rintro rfl; exact hall (by simp)) hlast hc

theorem splitOnChar_ne_nil (sep : Char) (l : List Char) :
    splitOnCharL sep l ≠ [] := by
  induction l with
  | nil => simp [splitOnCharL]
  | cons c cs ih =>
    by_cases h : c = sep
    · simp [splitOnCharL, h]
    · simp only [splitOnCharL, if_neg h]
      cases hs : splitOnCharL sep cs with
      | nil => simp
      | cons a t => simp

theorem splitOnChar_dot_headD (l : List Char) :
    (splitOnCharL ('.') l).headD [] = l.takeWhile notDot := by
  induction l with
  | nil => simp [splitOnCharL]
  | cons c cs ih =>
    by_cases h : c = '.'
    · subst h
      rw [List.takeWhile_cons_of_neg (by simp [notDot])]
      simp [splitOnCharL]
    · simp only [splitOnCharL, if_neg h]
      cases hs : splitOnCharL ('.') cs with
      | nil => exact absurd hs (splitOnChar_ne_nil ('.') cs)
      | cons a t =>
        rw [hs] at ih
        simp only [List.headD_cons] at ih
        rw [List.takeWhile_cons_of_pos (by simp [notDot, h])]
        simp [ih]

theorem splitextExt_append_nodot (d b : List Char) (hb : '/' ∉ b)
    (hnd : '.' ∉ b) :
    splitextExtL (d ++ '/' :: b) = [] := by
  have hdrop : b.reverse.dropWhile notDot = [] := by
    refine dropWhile_eq_nil_of_all _ (fun a ha => ?_)
    have hm : a ∈ b := List.mem_reverse.mp ha
    simp only [notDot, decide_eq_true_eq]
    intro h
    exact hnd (h ▸ hm)
  simp [splitextExtL, afterLastSlash_append d b hb, hdrop]

theorem splitextExt_append (d b : List Char) (hb : '/' ∉ b) (hdot : '.' ∈ b)
    (hhead : b.head? ≠ some '.') :
    splitextExtL (d ++ '/' :: b) = '.' :: (b.reverse.takeWhile notDot).reverse := by
  have hne : b.reverse.dropWhile notDot ≠ [] := by
    intro h
    have heq : b.reverse.takeWhile notDot = b.reverse := by
      conv_rhs => rw [← List.takeWhile_append_dropWhile notDot b.reverse]
      rw [h, List.append_nil]
    have hdm : ('.' : Char) ∈ b.reverse.takeWhile notDot := by
      rw [heq]
      simpa using hdot
    have := List.mem_takeWhile_imp hdm
    simp [notDot] at this
  obtain ⟨before, hdrop⟩ : ∃ before, b.reverse.dropWhile notDot = '.' :: before := by
    cases hd : b.reverse.dropWhile notDot with
    | nil => exact absurd hd hne
    | cons a t =>
      have ha : notDot a = false := head_false_of_dropWhile_eq_cons hd
      have haa : a = '.' := by simpa [notDot] using ha
      subst haa
      exact ⟨t, rfl⟩
  obtain ⟨c, rest, hbc⟩ : ∃ c rest, b = c :: rest := by
    cases b with
    | nil => simp at hdot
    | cons c rest => exact ⟨c, rest, rfl⟩
  have hc : c ≠ '.' := by
    intro h
    apply hhead
    rw [hbc, h]
    rfl
  have hlast : ('.' :: before).getLast? = some c := by
    rw [← hdrop, getLast?_dropWhile _ (by rw [hdrop]; simp),
      List.getLast?_reverse, hbc]
    rfl
  have hbe : before ≠ [] := by
    intro h
    rw [h] at hlast
    simp only [List.getLast?_singleton, Option.some.injEq] at hlast
    exact hc hlast.symm
  have hcin : c ∈ before := by
    have hmem := mem_of_getLast?_eq hlast
    rcases List.mem_cons.mp hmem with h | h
    · exact absurd h.symm (Ne.symm hc)
    · exact h
  have hany : before.any notDot = true :=
    List.any_eq_true.mpr ⟨c, hcin, by simp [notDot, hc]⟩
  simp [splitextExtL, afterLastSlash_append d b hb, hdrop, hany]

-- ------------------------------------------------------------------
-- Bridge lemmas between strings and character lists
-- ------------------------------------------------------------------

theorem mk_data (l : List Char) : (String.mk l).data = l := rfl

theorem notDot_reverse_of_not_mem {y : List Char} (hy : '.' ∉ y) :
    ∀ a ∈ y.reverse, notDot a = true := by
  intro a ha
  have hm : a ∈ y := List.mem_reverse.mp ha
  simp only [notDot, decide_eq_true_eq]
  intro h
  exact hy (h ▸ hm)

theorem notDot_of_not_mem {y : List Char} (hy : '.' ∉ y) :
    ∀ a ∈ y, notDot a = true := by
  intro a ha
  simp only [notDot, decide_eq_true_eq]
  intro h
  exact hy (h ▸ ha)

theorem head?_ne_dot (x s : List Char) (hx0 : x ≠ []) (hx : '.' ∉ x) :
    (x ++ s).head? ≠ some '.' := by
  cases x with
  | nil => exact absurd rfl hx0
  | cons c cs =>
    simp only [List.cons_append, List.head?_cons, ne_eq, Option.some.injEq]
    intro h
    exact hx (h ▸ List.mem_cons_self c cs)

/-- The name computed by the source, on a file name that starts with a
dot-free nonempty piece followed by a dot: exactly that piece. -/
theorem name_of_prefix_nodot (x s : List Char) (hx : '.' ∉ x) :
    (x ++ '.' :: s).takeWhile notDot = x := by
  rw [takeWhile_append_of_all _ _ (notDot_of_not_mem hx),
    List.takeWhile_cons_of_neg (by simp [notDot])]
  simp

/-- The extension computed by the source on a file name of the shape
g ++ dot ++ y with y dot-free: a dot followed by y. -/
theorem ext_of_dotted (d g y : List Char) (hg : '/' ∉ g ++ '.' :: y)
    (hy : '.' ∉ y) (hhead : (g ++ '.' :: y).head? ≠ some '.') :
    splitextExtL (d ++ '/' :: (g ++ '.' :: y)) = '.' :: y := by
  rw [splitextExt_append d _ hg (by simp) hhead]
  have htw : (g ++ '.' :: y).reverse.takeWhile notDot = y.reverse := by
    rw [List.reverse_append, List.reverse_cons, List.append_assoc,
      takeWhile_append_of_all _ _ (notDot_reverse_of_not_mem hy),
      List.singleton_append, List.takeWhile_cons_of_neg (by simp [notDot])]
    simp
  rw [htw, List.reverse_reverse]

/-- Formula for deriving an identity from a path and reading the absolute
path back. -/
theorem roundTripPath_mk (l : List Char) :
    roundTripPath (String.mk l) = some (String.mk (posixJoinL (dirnameL l)
      (((splitOnCharL ('.') (afterLastSlashL l)).headD []) ++ splitextExtL l))) := by
  simp [roundTripPath, getInfoFromPathFB, getAbsolutePathExc, pyDirname,
    pySplitDotHead, pyBasename, pySplitextExt, mk_data, Except.toOption]

-- ------------------------------------------------------------------
-- C1
-- ------------------------------------------------------------------

/-- C1: the claim says an incomplete-identity `save()` raises
NotEnoughInfoOnFile naming the missing fields.  The code is buggy here:
`_throwNotEnoughInfo` is declared without a `self` parameter, so the bound
call `self._throwNotEnoughInfo("save")` raises a TypeError and the promised
exception and message are unreachable.  The third conjunct shows the message
the unreachable body would have produced, which is exactly the claimed
enumeration of the missing fields in the fixed order. -/
theorem c1_incomplete_save_raises_python_type_error :
    (saveFB true (initialFileState (α := Nat))).2.1
        = some (PyErr.typeError pyMsgThrowArity)
    ∧ (∀ m : String, (saveFB true (initialFileState (α := Nat))).2.1
        ≠ some (PyErr.notEnoughInfoOnFile m))
    ∧ throwNotEnoughInfoMessage (initialFileState (α := Nat)) ("save")
        = ("The file name and extension and directory to intialise the save") := by
  refine ⟨rfl, ?_, rfl⟩
  intro m h
  simp [saveFB, initialFileState] at h

-- ------------------------------------------------------------------
-- C2
-- ------------------------------------------------------------------

/-- C2: a failed `save()` is atomic: whenever save raises, the object state
(dirty flag, identity fields, data, and the watch fields) is exactly what it
was before the call, and with an incomplete identity no file I/O at all is
performed, so a retry is safe. -/
theorem c2_failed_save_is_atomic (st : FileState Nat) (ioOk : Bool) :
    ((saveFB ioOk st).2.1 ≠ none → (saveFB ioOk st).1 = st)
    ∧ (identityCompleteB st = false →
        (saveFB ioOk st).2.1 ≠ none ∧ (saveFB ioOk st).2.2 = []) := by
  obtain ⟨u, w, lo, nm, ex, dir, da⟩ := st
  cases nm <;> cases ex <;> cases dir <;> cases ioOk <;>
    simp [saveFB, identityCompleteB]

/-- Witness for C2 at the freshly constructed handle. -/
theorem c2_witness :
    (saveFB true (initialFileState (α := Nat))).1 = initialFileState
    ∧ (saveFB true (initialFileState (α := Nat))).2.2 = [] := by
  have h := c2_failed_save_is_atomic (initialFileState (α := Nat)) true
  exact ⟨h.1 (by decide), (h.2 (by decide)).2⟩

-- ------------------------------------------------------------------
-- C3
-- ------------------------------------------------------------------

/-- C3 counterexample: the claim says `setData(v)` replaces the data first
and marks dirty second, so that the data already equals v when the dirty
flag transitions to true.  In the source the `makesChanges` decorator calls
`_changesMade` before the wrapped body runs, so at the transition
(after `changesMadeFB`, the first half of `setDataFB`) the data is still the
old value: here the flag has just turned true while the data is still none,
not some 5. -/
theorem c3_counterexample :
    (initialFileState (α := Nat)).unsavedChanges = false
    ∧ (changesMadeFB (initialFileState (α := Nat))).unsavedChanges = true
    ∧ ¬ ((changesMadeFB (initialFileState (α := Nat))).data = some (5 : Nat))
    ∧ (setDataFB (5 : Nat) (initialFileState (α := Nat))).data = some (5 : Nat) := by
  decide

/-- C3 (amended): `setData(v)` first marks the handle dirty (the decorator
runs `_changesMade` before the body) and only then replaces the data, so at
the moment the dirty flag transitions to true the data still holds its
pre-call value; after the call returns, the data is v and the flag is
true. -/
theorem c3_setData_marks_dirty_then_replaces (v : Nat) (st : FileState Nat) :
    setDataFB v st = setDataBody v (changesMadeFB st)
    ∧ (changesMadeFB st).data = st.data
    ∧ (changesMadeFB st).unsavedChanges = true
    ∧ (setDataFB v st).data = some v
    ∧ (setDataFB v st).unsavedChanges = true :=
  ⟨rfl, rfl, rfl, rfl, rfl⟩

-- ------------------------------------------------------------------
-- C4
-- ------------------------------------------------------------------

/-- C4 counterexample: the claim says deriving from /a/b/report.v2.csv
yields the extension .v2.csv; the code computes the extension with
os.path.splitext, which keeps only the last segment, .csv. -/
theorem c4_counterexample :
    ¬ ((getInfoFromPathFB ("/a/b/report.v2.csv")
        (initialFileState (α := Nat))).extension = some (".v2.csv")) := by
  decide

/-- C4 (amended): deriving from /a/b/report.v2.csv yields
baseName report, extension .csv, directory /a/b. -/
theorem c4_derive_report_v2_csv :
    (getInfoFromPathFB ("/a/b/report.v2.csv")
        (initialFileState (α := Nat))).name = some ("report")
    ∧ (getInfoFromPathFB ("/a/b/report.v2.csv")
        (initialFileState (α := Nat))).extension = some (".csv")
    ∧ (getInfoFromPathFB ("/a/b/report.v2.csv")
        (initialFileState (α := Nat))).directory = some ("/a/b") := by
  decide

-- ------------------------------------------------------------------
-- C7
-- ------------------------------------------------------------------

/-- C7 counterexample: the claim says hasUnsavedChanges() is false right
after open(path) succeeds regardless of the dirty state before the call.
Opening on a dirty handle leaves the flag true: `open` never touches it. -/
theorem c7_counterexample :
    ((openFB ("/a/b.c") (7 : Nat)
        (setDataFB (5 : Nat) (initialFileState (α := Nat)))).1).unsavedChanges
      = true := by
  decide

/-- C7 (amended): open(path) derives the identity from the path, reads and
decodes the stored data, establishes a watch subscription rooted at the
derived directory, and leaves the dirty flag exactly as it was; the flag is
false after construction from an existing path only because `__init__` sets
it to false before calling open. -/
theorem c7_open_preserves_dirty_flag (path : String) (v : Nat)
    (st : FileState Nat) :
    ((openFB path v st).1).unsavedChanges = st.unsavedChanges
    ∧ ((openFB path v st).1).directory = some (pyDirname path)
    ∧ ((openFB path v st).1).name = some (pySplitDotHead (pyBasename path))
    ∧ ((openFB path v st).1).extension = some (pySplitextExt path)
    ∧ ((openFB path v st).1).data = some v
    ∧ ((openFB path v st).1).watchdog = some (pyDirname path)
    ∧ (openFB path v st).2.1 = none
    ∧ (openFB path v st).2.2 = [FsEvent.readFile path]
    ∧ hasUnsavedChangesFB (fileBaseInitExisting path v).1 = false := by
  simp [openFB, getInfoFromPathFB, initWatchdogFB, fileBaseInitExisting,
    initialFileState, hasUnsavedChangesFB]

-- ------------------------------------------------------------------
-- C8
-- ------------------------------------------------------------------

/-- C8: delivering a Deleted event whose path equals the current absolute
path raises FileDeleted with a message naming the original name+extension
and directory, mutates nothing (not the identity, not the dirty flag, not
the subscription), and a subsequent save() recreates the file at the
original absolute path. -/
theorem c8_deleted_event (st : FileState Nat) (n e d ap : String)
    (hn : st.name = some n) (he : st.extension = some e)
    (hd : st.directory = some d)
    (hap : ap = String.mk (posixJoinL d.data (n.data ++ e.data))) :
    (onDeletedFB ap st).1 = st
    ∧ (onDeletedFB ap st).2.1 = some (PyErr.fileDeleted
        (("The file " : String) ++ (n ++ e) ++
          (" was either deleted or moved from " : String) ++ d))
    ∧ (onDeletedFB ap st).2.2 = []
    ∧ (saveFB true st).2.1 = none
    ∧ (saveFB true st).2.2 = [FsEvent.writeFile ap st.data] := by
  subst hap
  simp [onDeletedFB, getAbsolutePathExc, hn, he, hd, evtOnFileDeletedFB,
    saveFB]

/-- Witness for C8 on the demo handle opened at /a/b.c. -/
theorem c8_witness :
    (onDeletedFB ("/a/b.c") openedDemoState).1 = openedDemoState
    ∧ (onDeletedFB ("/a/b.c") openedDemoState).2.1 = some (PyErr.fileDeleted
        (("The file " : String) ++ (("b" : String) ++ (".c" : String)) ++
          (" was either deleted or moved from " : String) ++ ("/a" : String)))
    ∧ (onDeletedFB ("/a/b.c") openedDemoState).2.2 = []
    ∧ (saveFB true openedDemoState).2.1 = none
    ∧ (saveFB true openedDemoState).2.2
        = [FsEvent.writeFile ("/a/b.c") openedDemoState.data] := by
  have h := c8_deleted_event openedDemoState ("b") (".c") ("/a") ("/a/b.c")
    (by decide) (by decide) (by decide) (by decide)
  exact h

-- ------------------------------------------------------------------
-- C9
-- ------------------------------------------------------------------

/-- C9 counterexample: the claim says a relocation tears the previous
subscription down, keeping at most one live subscription.  After opening
/a/b.c and then receiving a Moved event to /d/e.f, the observer started on
/a was never stopped: two observers are live. -/
theorem c9_counterexample :
    (runOps [FileOp.openOp ("/a/b.c") (0 : Nat),
        FileOp.onMovedOp ("/a/b.c") ("/d/e.f")]
      initialFileState).liveObservers = [("/a"), ("/d")]
    ∧ ¬ ((runOps [FileOp.openOp ("/a/b.c") (0 : Nat),
        FileOp.onMovedOp ("/a/b.c") ("/d/e.f")]
      initialFileState).liveObservers.length ≤ 1) := by
  decide

/-- C9 (amended): the handle references at most one subscription
(`self.watchdog`), and a relocation replaces that reference with a fresh
observer on the new directory; but the previous observer is never stopped,
so it stays live alongside the new one: the list of live observers grows by
one on every relocation (Moved event or recoverFromDelete). -/
theorem c9_relocation_stacks_observers (st : FileState Nat)
    (src dest : String) (h : getAbsolutePathExc st = Except.ok src) :
    ((onMovedFB src dest st).1).watchdog = some (pyDirname dest)
    ∧ ((onMovedFB src dest st).1).liveObservers
        = st.liveObservers ++ [pyDirname dest]
    ∧ (∀ p : String, ((recoverFromDeleteFB p st).1).liveObservers
        = st.liveObservers ++ [pyDirname p]) := by
  refine ⟨?_, ?_, ?_⟩
  · simp [onMovedFB, h, evtOnFileMovedFB, updateFileLocationFB,
      getInfoFromPathFB, initWatchdogFB]
  · simp [onMovedFB, h, evtOnFileMovedFB, updateFileLocationFB,
      getInfoFromPathFB, initWatchdogFB]
  · intro p
    simp [recoverFromDeleteFB, updateFileLocationFB, getInfoFromPathFB,
      initWatchdogFB]

/-- Witness for C9 on the demo handle opened at /a/b.c. -/
theorem c9_witness :
    ((onMovedFB ("/a/b.c") ("/d/e.f") openedDemoState).1).watchdog
        = some (pyDirname ("/d/e.f"))
    ∧ ((onMovedFB ("/a/b.c") ("/d/e.f") openedDemoState).1).liveObservers
        = openedDemoState.liveObservers ++ [pyDirname ("/d/e.f")]
    ∧ (∀ p : String,
        ((recoverFromDeleteFB p openedDemoState).1).liveObservers
          = openedDemoState.liveObservers ++ [pyDirname p]) := by
  exact c9_relocation_stacks_observers openedDemoState ("/a/b.c") ("/d/e.f")
    (by rfl)

-- ------------------------------------------------------------------
-- C5
-- ------------------------------------------------------------------

/-- C5: on a path whose file name contains a dot (and does not start with
one, so that the splitext convention assigns it an extension at all), the
derivation sets the name to everything before the first dot of the file
name and the extension to the last dot-separated segment only, prefixed by
its dot. -/
theorem c5_name_before_first_dot_ext_last_segment (d b : List Char)
    (hb : '/' ∉ b) (hdot : '.' ∈ b) (hhead : b.head? ≠ some '.') :
    (getInfoFromPathFB (String.mk (d ++ '/' :: b))
        (initialFileState (α := Nat))).name
      = some (spec_beforeFirstDot (String.mk b))
    ∧ (getInfoFromPathFB (String.mk (d ++ '/' :: b))
        (initialFileState (α := Nat))).extension
      = some (spec_lastExtSegment (String.mk b)) := by
  constructor
  · simp only [getInfoFromPathFB, pySplitDotHead, pyBasename,
      spec_beforeFirstDot, mk_data, afterLastSlash_append d b hb,
      splitOnChar_dot_headD]
  · simp only [getInfoFromPathFB, pySplitextExt, spec_lastExtSegment,
      mk_data, splitextExt_append d b hb hdot hhead]

/-- Witness for C5 at /a/b/a.b.tar.gz: name a, extension .gz (never
.b.tar.gz). -/
theorem c5_witness :
    (getInfoFromPathFB ("/a/b/a.b.tar.gz")
        (initialFileState (α := Nat))).name = some ("a")
    ∧ (getInfoFromPathFB ("/a/b/a.b.tar.gz")
        (initialFileState (α := Nat))).extension = some (".gz") := by
  have h := c5_name_before_first_dot_ext_last_segment
    (("/a/b" : String)).data (("a.b.tar.gz" : String)).data
    (by decide) (by decide) (by decide)
  rw [show String.mk ((("/a/b" : String)).data ++ '/' ::
      (("a.b.tar.gz" : String)).data) = ("/a/b/a.b.tar.gz" : String)
    from by decide] at h
  rw [show spec_beforeFirstDot (String.mk (("a.b.tar.gz" : String)).data)
      = ("a" : String) from by decide] at h
  rw [show spec_lastExtSegment (String.mk (("a.b.tar.gz" : String)).data)
      = (".gz" : String) from by decide] at h
  exact h

-- ------------------------------------------------------------------
-- C10
-- ------------------------------------------------------------------

/-- C10 counterexample: the claim says every absolute path whose file name
has at most one dot round-trips unchanged.  The hidden file /a/.bashrc has
exactly one dot, yet its name derives to the empty string and its extension
to the empty string (splitext assigns no extension to a leading-dot name),
so the round trip returns /a/ instead. -/
theorem c10_counterexample :
    roundTripPath ("/a/.bashrc") = some ("/a/")
    ∧ ("/a/" : String) ≠ ("/a/.bashrc" : String) := by
  decide

/-- C10 (amended): write the path as directory part d, a slash, and a
slash-free file name b, where d does not end in a slash (or consists only of
slashes, covering the filesystem root).  If b has no dot, or exactly one dot
splitting it as x.y with x nonempty (the file name does not start with its
dot), the round trip returns the path unchanged.  If b has two or more dots
(x.m.y with x nonempty and dot-free, y dot-free), the round trip is lossy:
it returns the directory joined with x plus the last extension segment .y
only, which is strictly shorter than b — the middle segments are silently
dropped. -/
theorem c10_roundtrip (d b : List Char) (hb : '/' ∉ b)
    (hd : d.getLast? ≠ some '/' ∨ ∀ x ∈ d, x = '/') :
    ('.' ∉ b → roundTripPath (String.mk (d ++ '/' :: b))
        = some (String.mk (d ++ '/' :: b)))
    ∧ (∀ x y : List Char, x ≠ [] → '.' ∉ x → '.' ∉ y → b = x ++ '.' :: y →
        roundTripPath (String.mk (d ++ '/' :: b))
          = some (String.mk (d ++ '/' :: b)))
    ∧ (∀ x m y : List Char, x ≠ [] → '.' ∉ x → '.' ∉ y →
        b = x ++ '.' :: (m ++ '.' :: y) →
        roundTripPath (String.mk (d ++ '/' :: b))
          = some (String.mk (d ++ '/' :: (x ++ '.' :: y)))
        ∧ (x ++ '.' :: y).length < b.length) := by
  refine ⟨?_, ?_, ?_⟩
  · intro hnd
    rw [roundTripPath_mk, afterLastSlash_append d b hb, splitOnChar_dot_headD,
      takeWhile_eq_self_of_all _ (notDot_of_not_mem hnd),
      splitextExt_append_nodot d b hb hnd, List.append_nil,
      join_dirname d b b hb hb hd]
  · intro x y hx0 hx hy hbeq
    subst hbeq
    rw [roundTripPath_mk, afterLastSlash_append d _ hb, splitOnChar_dot_headD,
      name_of_prefix_nodot x y hx,
      ext_of_dotted d x y hb hy (head?_ne_dot x ('.' :: y) hx0 hx),
      join_dirname d _ _ hb hb hd]
  · intro x m y hx0 hx hy hbeq
    subst hbeq
    have hbxy : '/' ∉ x ++ '.' :: y := by
      intro hmem
      rcases List.mem_append.mp hmem with h1 | h1
      · exact hb (List.mem_append_left _ h1)
      · rcases List.mem_cons.mp h1 with h2 | h2
        · exact absurd h2 (by decide)
        · exact hb (List.mem_append_right _ (List.mem_cons_of_mem _
            (List.mem_append_right _ (List.mem_cons_of_mem _ h2))))
    have hext : splitextExtL (d ++ '/' :: (x ++ '.' :: (m ++ '.' :: y)))
        = '.' :: y := by
      have hre : x ++ '.' :: (m ++ '.' :: y) = (x ++ '.' :: m) ++ '.' :: y := by
        simp
      rw [hre]
      refine ext_of_dotted d (x ++ '.' :: m) y ?_ hy ?_
      · rw [← hre]
        exact hb
      · rw [List.append_assoc]
        exact head?_ne_dot x ('.' :: m ++ '.' :: y) hx0 hx
    constructor
    · rw [roundTripPath_mk, afterLastSlash_append d _ hb,
        splitOnChar_dot_headD, name_of_prefix_nodot x _ hx, hext,
        join_dirname d _ _ hb hbxy hd]
    · simp only [List.length_append, List.length_cons]
      omega

/-- Witness for C10: /a/b.c round-trips unchanged; /a/b.x.c comes back as
/a/b.c. -/
theorem c10_witness :
    roundTripPath ("/a/b.c") = some ("/a/b.c")
    ∧ roundTripPath ("/a/b.x.c") = some ("/a/b.c") := by
  have h2 := c10_roundtrip (("/a" : String)).data (("b.c" : String)).data
    (by decide) (Or.inl (by decide))
  have h3 := c10_roundtrip (("/a" : String)).data (("b.x.c" : String)).data
    (by decide) (Or.inl (by decide))
  constructor
  · have hA := h2.2.1 (['b']) (['c']) (by decide) (by decide) (by decide)
      (by decide)
    rw [show String.mk ((("/a" : String)).data ++ '/' ::
        (("b.c" : String)).data) = ("/a/b.c" : String) from by decide] at hA
    exact hA
  · have hB := h3.2.2 (['b']) (['x']) (['c']) (by decide) (by decide)
      (by decide) (by decide)
    have hB1 := hB.1
    rw [show String.mk ((("/a" : String)).data ++ '/' ::
        (("b.x.c" : String)).data) = ("/a/b.x.c" : String) from by decide] at hB1
    rw [show String.mk ((("/a" : String)).data ++ '/' ::
        ((['b'] : List Char) ++ '.' :: ['c'])) = ("/a/b.c" : String)
      from by decide] at hB1
    exact hB1

-- ------------------------------------------------------------------
-- C6
-- ------------------------------------------------------------------

/-- C6: across every public operation and delivered event, the dirty flag
is set true by the mutating operation on the owned data (setData), set
false exactly when a save (directly or inside saveAs) completes without
raising, and undergoes no other transition: every remaining operation, and
every failing save, leaves it exactly as it was. -/
theorem c6_dirty_flag_transitions (op : FileOp Nat) (st : FileState Nat) :
    ((∃ v, op = FileOp.setDataOp v) →
      hasUnsavedChangesFB (step op st).1 = true)
    ∧ (∀ ioOk : Bool,
        (op = FileOp.saveOp ioOk ∨ ∃ p, op = FileOp.saveAsOp p ioOk) →
        ((step op st).2.1 = none → hasUnsavedChangesFB (step op st).1 = false)
        ∧ ((step op st).2.1 ≠ none →
            hasUnsavedChangesFB (step op st).1 = st.unsavedChanges))
    ∧ (((¬ ∃ v, op = FileOp.setDataOp v) ∧ (¬ ∃ k, op = FileOp.saveOp k)
        ∧ ¬ ∃ p k, op = FileOp.saveAsOp p k) →
      hasUnsavedChangesFB (step op st).1 = st.unsavedChanges) := by
  obtain ⟨u, w, lo, nm, ex, dir, da⟩ := st
  cases op with
  | openOp p v =>
    refine ⟨?_, ?_, ?_⟩
    · rintro ⟨v', h⟩
      simp at h
    · rintro ioOk (h | ⟨q, h⟩) <;> simp at h
    · intro _
      simp [step, openFB, getInfoFromPathFB, initWatchdogFB,
        hasUnsavedChangesFB]
  | saveOp k =>
    refine ⟨?_, ?_, ?_⟩
    · rintro ⟨v', h⟩
      simp at h
    · rintro ioOk (h | ⟨q, h⟩)
      · cases h
        cases nm <;> cases ex <;> cases dir <;> cases k <;>
          simp [step, saveFB, hasUnsavedChangesFB]
      · simp at h
    · rintro ⟨h1, h2, h3⟩
      exact absurd ⟨k, rfl⟩ h2
  | saveAsOp p k =>
    refine ⟨?_, ?_, ?_⟩
    · rintro ⟨v', h⟩
      simp at h
    · rintro ioOk (h | ⟨q, h⟩)
      · simp at h
      · cases h
        cases k <;>
          simp [step, saveAsFB, saveFB, getInfoFromPathFB, initWatchdogFB,
            hasUnsavedChangesFB]
    · rintro ⟨h1, h2, h3⟩
      exact absurd ⟨p, k, rfl⟩ h3
  | setDataOp v =>
    refine ⟨?_, ?_, ?_⟩
    · intro _
      simp [step, setDataFB, setDataBody, changesMadeFB, hasUnsavedChangesFB]
    · rintro ioOk (h | ⟨q, h⟩) <;> simp at h
    · rintro ⟨h1, h2, h3⟩
      exact absurd ⟨v, rfl⟩ h1
  | getDataOp =>
    refine ⟨?_, ?_, ?_⟩
    · rintro ⟨v', h⟩
      simp at h
    · rintro ioOk (h | ⟨q, h⟩) <;> simp at h
    · intro _
      simp [step, hasUnsavedChangesFB]
  | hasUnsavedChangesOp =>
    refine ⟨?_, ?_, ?_⟩
    · rintro ⟨v', h⟩
      simp at h
    · rintro ioOk (h | ⟨q, h⟩) <;> simp at h
    · intro _
      simp [step, hasUnsavedChangesFB]
  | getAbsolutePathOp =>
    refine ⟨?_, ?_, ?_⟩
    · rintro ⟨v', h⟩
      simp at h
    · rintro ioOk (h | ⟨q, h⟩) <;> simp at h
    · intro _
      cases nm <;> cases ex <;> cases dir <;>
        simp [step, getAbsolutePathExc, hasUnsavedChangesFB]
  | recoverFromDeleteOp p =>
    refine ⟨?_, ?_, ?_⟩
    · rintro ⟨v', h⟩
      simp at h
    · rintro ioOk (h | ⟨q, h⟩) <;> simp at h
    · intro _
      simp [step, recoverFromDeleteFB, updateFileLocationFB,
        getInfoFromPathFB, initWatchdogFB, hasUnsavedChangesFB]
  | onMovedOp s t =>
    refine ⟨?_, ?_, ?_⟩
    · rintro ⟨v', h⟩
      simp at h
    · rintro ioOk (h | ⟨q, h⟩) <;> simp at h
    · intro _
      cases nm <;> cases ex <;> cases dir <;>
        simp [step, onMovedFB, getAbsolutePathExc, evtOnFileMovedFB,
          updateFileLocationFB, getInfoFromPathFB, initWatchdogFB,
          hasUnsavedChangesFB, apply_ite]
  | onDeletedOp s =>
    refine ⟨?_, ?_, ?_⟩
    · rintro ⟨v', h⟩
      simp at h
    · rintro ioOk (h | ⟨q, h⟩) <;> simp at h
    · intro _
      cases nm <;> cases ex <;> cases dir <;>
        simp [step, onDeletedFB, getAbsolutePathExc, evtOnFileDeletedFB,
          hasUnsavedChangesFB, apply_ite]
  | onModifiedOp s =>
    refine ⟨?_, ?_, ?_⟩
    · rintro ⟨v', h⟩
      simp at h
    · rintro ioOk (h | ⟨q, h⟩) <;> simp at h
    · intro _
      cases nm <;> cases ex <;> cases dir <;>
        simp [step, onModifiedFB, getAbsolutePathExc, evtOnFileModifiedFB,
          updateFileLocationFB, getInfoFromPathFB, initWatchdogFB,
          hasUnsavedChangesFB, apply_ite]

/-- Witness for C6: setData turns the flag on; a successful save on the
demo handle turns it off. -/
theorem c6_witness :
    hasUnsavedChangesFB (step (FileOp.setDataOp (7 : Nat))
      initialFileState).1 = true
    ∧ hasUnsavedChangesFB (step (FileOp.saveOp true)
      (setDataFB (7 : Nat) openedDemoState)).1 = false := by
  constructor
  · exact (c6_dirty_flag_transitions (FileOp.setDataOp 7)
      initialFileState).1 ⟨7, rfl⟩
  · exact ((c6_dirty_flag_transitions (FileOp.saveOp true)
      (setDataFB (7 : Nat) openedDemoState)).2.1 true (Or.inl rfl)).1
      (by decide)
